import Mathlib

/-!
Verification of the task-manager store (`src/task_manager.py`) and the
WSGI front end (`src/web_app.py`) as a shallow embedding in Lean 4.

Modelling conventions:
* Timestamps (`datetime.now(UTC).isoformat()`) are opaque strings passed
  in explicitly as a `now` argument.
* The persisted file is `Option FileData`: `none` models a missing file,
  `some (FileData.wellFormed ts)` a file whose JSON parses to the task
  records `ts`, and `some FileData.malformed` a file whose content
  `json.load` rejects.
* Python exceptions are modelled with `Except PyError`; mutating store
  operations return the resulting state alongside, so a raised error
  leaves the state visibly unchanged (Python mutates in place).
* Python list indexing `xs[i]` / `xs.pop(i)` accepts negative indices:
  `i` is valid iff `-n ≤ i < n` and a negative `i` addresses `n + i`.
  This is captured by `pyIdx`.
-/

namespace TaskApp

/-- Embeds the `Task` dataclass of `src/task_manager.py`. -/
structure Task where
  title : String
  description : String := ""
  completed : Bool := false
  created_at : String
  completed_at : Option String := none
deriving Repr, DecidableEq

instance : Inhabited Task := ⟨{ title := "", created_at := "" }⟩

/-- `Task.complete` (task_manager.py lines 24-27): if the task is not yet
completed, set `completed` and stamp `completed_at`; otherwise do nothing. -/
def Task.complete (t : Task) (now : String) : Task :=
  if !t.completed then { t with completed := true, completed_at := some now }
  else t

/-- Content of the persisted `tasks.json` file, as seen through `json.load`
and `Task(**record)`: either a well-formed list of task records, or content
the parser rejects. -/
inductive FileData where
  | wellFormed (tasks : List Task)
  | malformed
deriving Repr, DecidableEq

/-- Python exceptions relevant to the embedded code. -/
inductive PyError where
  | valueError (msg : String)
  | jsonDecodeError
deriving Repr, DecidableEq

/-- The in-memory state of a `TaskManager` together with the persisted
file it owns (`self.tasks` and the content at `self.storage_path`). -/
structure TMState where
  tasks : List Task
  file : Option FileData
deriving Repr, DecidableEq

/-- `TaskManager.load` (lines 38-44): a missing file initialises the task
list to empty; a well-formed file yields its records; malformed content
raises `json.JSONDecodeError`. -/
def load (file : Option FileData) : Except PyError (List Task) :=
  match file with
  | none => .ok []
  | some (.wellFormed ts) => .ok ts
  | some .malformed => .error .jsonDecodeError

/-- `TaskManager.__init__` (lines 33-36): record the storage path, start
with an empty list, then `load`. -/
def mkTaskManager (file : Option FileData) : Except PyError TMState := do
  let ts ← load file
  .ok { tasks := ts, file := file }

/-- `TaskManager.save` (lines 46-48): rewrite the persisted file with the
full current sequence. -/
def save (s : TMState) : TMState :=
  { s with file := some (.wellFormed s.tasks) }

/-- Normalise a Python list index: `xs[i]` is valid iff `-n ≤ i < n`,
and a negative `i` addresses position `n + i`. -/
def pyIdx (i : Int) (n : Nat) : Option Nat :=
  if 0 ≤ i then
    if i < (n : Int) then some i.toNat else none
  else
    if -i ≤ (n : Int) then some (n - (-i).toNat) else none

/-- `TaskManager.add_task` (lines 50-54): append a fresh task, save,
return it. -/
def add_task (s : TMState) (title : String) (description : String)
    (now : String) : Task × TMState :=
  let t : Task := { title := title, description := description,
                    completed := false, created_at := now,
                    completed_at := none }
  (t, save { s with tasks := s.tasks ++ [t] })

/-- `TaskManager.list_tasks` (lines 56-59): the full sequence, or only the
not-completed subsequence. (Python returns a fresh list either way; the
state is not mutated.) -/
def list_tasks (s : TMState) (show_completed : Bool := true) : List Task :=
  if show_completed then s.tasks
  else s.tasks.filter (fun t => !t.completed)

/-- `TaskManager.complete_task` (lines 61-68): index the list (an
`IndexError` becomes `ValueError "Invalid task index"` and the state is
untouched), complete the task in place, save, return the task. -/
def complete_task (s : TMState) (i : Int) (now : String) :
    Except PyError Task × TMState :=
  match pyIdx i s.tasks.length with
  | none => (.error (.valueError "Invalid task index"), s)
  | some pos =>
    let t := (s.tasks.getD pos default).complete now
    (.ok t, save { s with tasks := s.tasks.set pos t })

/-- `TaskManager.delete_task` (lines 70-76): `pop` the task at the index
(an `IndexError` becomes `ValueError "Invalid task index"` and the state
is untouched), save, return the removed task. -/
def delete_task (s : TMState) (i : Int) :
    Except PyError Task × TMState :=
  match pyIdx i s.tasks.length with
  | none => (.error (.valueError "Invalid task index"), s)
  | some pos =>
    let t := s.tasks.getD pos default
    (.ok t, save { s with tasks := s.tasks.take pos ++ s.tasks.drop (pos + 1) })

/-- `TaskManager.clear_completed` (lines 78-80): keep only the
not-completed tasks, save. -/
def clear_completed (s : TMState) : TMState :=
  save { s with tasks := s.tasks.filter (fun t => !t.completed) }

/-- The data-model invariant of spec §3: `completed_at` is present iff
`completed` is true (as a Boolean check on one task). -/
def taskInv (t : Task) : Bool :=
  t.completed_at.isSome == t.completed

/-- The invariant holds of every task in the store. -/
def storeInv (s : TMState) : Bool :=
  s.tasks.all taskInv

/-! ### Web front end (`src/web_app.py`)

Strings flowing through the web layer are modelled as ASCII; `str.strip`,
`int()` and `urllib.parse.quote_plus` are embedded for that range. -/

/-- Python whitespace as used by `str.strip()` and `int()` (ASCII range). -/
def isPySpace (c : Char) : Bool :=
  c = ' ' || c = '\t' || c = '\n' || c = '\r' ||
    c = Char.ofNat 11 || c = Char.ofNat 12

/-- `str.strip()` on a character list: drop leading and trailing
whitespace. -/
def pyStripList (cs : List Char) : List Char :=
  ((cs.dropWhile isPySpace).reverse.dropWhile isPySpace).reverse

/-- `str.strip()`. -/
def pyStrip (s : String) : String :=
  ⟨pyStripList s.data⟩

/-- Helper for `str.split(sep, maxsplit)` on a single-character
separator: `acc` holds the current field reversed, the `Nat` counts the
splits still allowed. -/
def pySplitAux (sep : Char) : Nat → List Char → List Char → List (List Char)
  | _, acc, [] => [acc.reverse]
  | k, acc, c :: rest =>
    if c = sep then
      match k with
      | 0 => [acc.reverse ++ c :: rest]
      | k' + 1 => acc.reverse :: pySplitAux sep k' [] rest
    else pySplitAux sep k (c :: acc) rest

/-- Python `s.split(sep, maxsplit)` for a one-character separator. -/
def pySplit (s : String) (sep : Char) (maxsplit : Nat) : List String :=
  (pySplitAux sep maxsplit [] s.data).map fun cs => ⟨cs⟩

/-- Digits of an `int()` literal after the first: each digit may be
preceded by a single underscore. -/
def validDigitsTail : List Char → Bool
  | [] => true
  | '_' :: c :: rest => c.isDigit && validDigitsTail rest
  | c :: rest => c.isDigit && validDigitsTail rest

/-- A non-empty digit run as accepted by `int()`: digits with single
underscores strictly between digits. -/
def validDigits : List Char → Bool
  | [] => false
  | c :: rest => c.isDigit && validDigitsTail rest

/-- Numeric value of a digit run, ignoring underscores. -/
def digitsVal (cs : List Char) : Nat :=
  (cs.filter fun c => c != '_').foldl (fun acc c => acc * 10 + (c.toNat - 48)) 0

/-- Python `int(s)`: optional surrounding whitespace, optional sign, then
a digit run; `none` models the `ValueError` raised otherwise. -/
def pyInt (s : String) : Option Int :=
  match pyStripList s.data with
  | '+' :: rest => if validDigits rest then some (Int.ofNat (digitsVal rest)) else none
  | '-' :: rest => if validDigits rest then some (-(Int.ofNat (digitsVal rest))) else none
  | rest => if validDigits rest then some (Int.ofNat (digitsVal rest)) else none

/-- Characters `urllib.parse.quote` never escapes. -/
def quoteSafe (c : Char) : Bool :=
  c.isAlphanum || c = '_' || c = '.' || c = '-' || c = '~'

/-- Uppercase hexadecimal digit for `n < 16`. -/
def hexDigit (n : Nat) : Char :=
  if n < 10 then Char.ofNat (48 + n) else Char.ofNat (55 + n)

/-- `quote_plus` applied to one UTF-8 byte: safe ASCII passes through,
space becomes `+`, anything else is percent-encoded. -/
def quotePlusByte (b : Nat) : List Char :=
  if b = 32 then ['+']
  else if b < 128 && quoteSafe (Char.ofNat b) then [Char.ofNat b]
  else ['%', hexDigit (b / 16), hexDigit (b % 16)]

/-- UTF-8 encoding of one character as byte values (the standard
encoding, mirrored on `Nat`). -/
def utf8CharBytes (c : Char) : List Nat :=
  let v := c.toNat
  if v ≤ 0x7f then [v]
  else if v ≤ 0x7ff then
    [(v >>> 6) &&& 0x1f ||| 0xc0, v &&& 0x3f ||| 0x80]
  else if v ≤ 0xffff then
    [(v >>> 12) &&& 0x0f ||| 0xe0, (v >>> 6) &&& 0x3f ||| 0x80,
     v &&& 0x3f ||| 0x80]
  else
    [(v >>> 18) &&& 0x07 ||| 0xf0, (v >>> 12) &&& 0x3f ||| 0x80,
     (v >>> 6) &&& 0x3f ||| 0x80, v &&& 0x3f ||| 0x80]

/-- `urllib.parse.quote_plus` over the UTF-8 encoding of the string. -/
def quotePlus (s : String) : String :=
  ⟨(((s.data.map utf8CharBytes).flatten).map quotePlusByte).flatten⟩

/-- `urllib.parse.urlencode` on an ordered key/value sequence. -/
def urlencode (params : List (String × String)) : String :=
  String.intercalate "&" (params.map fun p => quotePlus p.1 ++ "=" ++ quotePlus p.2)

/-- An HTTP response as far as the claims observe it: status code and
headers (`303 See Other` responses carry a `Location` header). -/
structure Response where
  status : Nat
  headers : List (String × String)
deriving Repr, DecidableEq

/-- `_redirect` (web_app.py lines 191-200): keep the non-empty parameters
in the order message-then-error, urlencode them into the location. -/
def redirect (message : String) (error : String) : Response :=
  let params := (if message = "" then [] else [("message", message)])
             ++ (if error = "" then [] else [("error", error)])
  let location := if params.isEmpty then "/" else "/" ++ "?" ++ urlencode params
  { status := 303, headers := [("Location", location)] }

/-- `data.get(key, "")` on the parsed POST body (`_read_post_data` keeps
the first value of each form field). -/
def formGet (form : List (String × String)) (key : String) : String :=
  match form.find? fun p => p.1 == key with
  | some p => p.2
  | none => ""

/-- `_handle_add` (web_app.py lines 156-165): strip the form fields; a
blank title yields an error redirect before the manager is even
constructed; otherwise construct the manager, add the task, redirect. -/
def handle_add (file : Option FileData) (form : List (String × String))
    (now : String) : Except PyError (Response × Option FileData) :=
  let title := pyStrip (formGet form "title")
  let description := pyStrip (formGet form "description")
  if title = "" then .ok (redirect "" "Task title is required.", file)
  else do
    let m ← mkTaskManager file
    let s2 := (add_task m title description now).2
    .ok (redirect "Task added successfully." "", s2.file)

/-- `_extract_index` (web_app.py lines 202-207): `path.split("/", 3)`
must unpack into exactly four parts and the third must be `int()`-
parseable; otherwise a `ValueError` is raised. -/
def extract_index (path : String) (action : String) : Except PyError Int :=
  match pySplit path '/' 3 with
  | [_, _, index_part, _] =>
    match pyInt index_part with
    | some i => .ok i
    | none => .error (.valueError ("Invalid " ++ action ++ " path: " ++ path))
  | _ => .error (.valueError ("Invalid " ++ action ++ " path: " ++ path))

/-- `_handle_complete` (web_app.py lines 167-174): `_extract_index` is
called outside the try/except, so its `ValueError` propagates uncaught;
only a `ValueError` from `complete_task` becomes an error redirect. -/
def handle_complete (file : Option FileData) (path : String)
    (now : String) : Except PyError (Response × Option FileData) := do
  let index ← extract_index path "complete"
  let m ← mkTaskManager file
  match complete_task m index now with
  | (.error _, _) =>
    .ok (redirect "" "Unable to complete the selected task.", file)
  | (.ok _, s2) =>
    .ok (redirect "Task marked as complete." "", s2.file)

/-- `_handle_delete` (web_app.py lines 176-183): same shape as
`handle_complete`, with `delete_task`. -/
def handle_delete (file : Option FileData) (path : String) :
    Except PyError (Response × Option FileData) := do
  let index ← extract_index path "delete"
  let m ← mkTaskManager file
  match delete_task m index with
  | (.error _, _) =>
    .ok (redirect "" "Unable to delete the selected task.", file)
  | (.ok _, s2) =>
    .ok (redirect "Task deleted." "", s2.file)

/-- `_handle_clear` (web_app.py lines 185-188). -/
def handle_clear (file : Option FileData) :
    Except PyError (Response × Option FileData) := do
  let m ← mkTaskManager file
  let s2 := clear_completed m
  .ok (redirect "Completed tasks cleared." "", s2.file)

/-- Sample task used by concrete witnesses. -/
def sampleTask (ti : String) (c : Bool) : Task :=
  { title := ti, description := "", completed := c, created_at := "t0",
    completed_at := if c then some "t1" else none }

/-- A two-task store (one completed) used by concrete witnesses. -/
def sampleState : TMState :=
  { tasks := [sampleTask "A" true, sampleTask "B" false], file := none }

/-! ### Helper lemmas -/

lemma pyIdx_lt {i : Int} {n pos : Nat} (h : pyIdx i n = some pos) : pos < n := by
  unfold pyIdx at h
  split at h
  · split at h
    · injection h with h; omega
    · exact absurd h (by simp)
  · split at h
    · injection h with h; omega
    · exact absurd h (by simp)

lemma pyIdx_none {i : Int} {n : Nat}
    (h : i < -(n : Int) ∨ (n : Int) ≤ i) : pyIdx i n = none := by
  unfold pyIdx
  split
  · rw [if_neg (by omega)]
  · rw [if_neg (by omega)]

lemma pyIdx_ofNat {i n : Nat} (h : i < n) : pyIdx (i : Int) n = some i := by
  unfold pyIdx
  rw [if_pos (by omega), if_pos (by exact_mod_cast h)]
  simp

lemma pyIdx_neg {k n : Nat} (h1 : 1 ≤ k) (h2 : k ≤ n) :
    pyIdx (-(k : Int)) n = some (n - k) := by
  unfold pyIdx
  rw [if_neg (by omega), if_pos (by omega)]
  simp

lemma getD_mem {l : List Task} {pos : Nat} (h : pos < l.length) :
    l.getD pos default ∈ l := by
  rw [List.getD_eq_getElem l default h]
  exact List.getElem_mem h

lemma taskInv_complete {t : Task} (h : taskInv t = true) (now : String) :
    taskInv (t.complete now) = true := by
  unfold Task.complete
  split
  · rfl
  · exact h

lemma completed_complete (x : Task) (now : String) :
    (x.complete now).completed = true := by
  unfold Task.complete
  split
  · rfl
  · rename_i h; simpa using h

lemma completed_at_complete {x : Task} (hx : taskInv x = true) (now : String) :
    (x.complete now).completed_at ≠ none := by
  unfold Task.complete
  split
  · simp
  · rename_i h
    have hc : x.completed = true := by simpa using h
    unfold taskInv at hx
    rw [hc] at hx
    simpa [Option.isSome_iff_ne_none] using hx

lemma complete_of_completed {x : Task} (hx : x.completed = true) (now : String) :
    x.complete now = x := by
  unfold Task.complete
  rw [hx]
  simp

/-! ### Claims -/

/-- C1: for every store and every index that is out of bounds for the
current task sequence (outside `[-n, n)` in Python's addressing),
`complete_task` and `delete_task` raise `ValueError "Invalid task index"`
and leave both the in-memory task sequence and the persisted file
unchanged (the returned state is the input state). -/
theorem C1_out_of_bounds_fails_unchanged (s : TMState) (i : Int) (now : String)
    (h : i < -(s.tasks.length : Int) ∨ (s.tasks.length : Int) ≤ i) :
    complete_task s i now = (.error (.valueError "Invalid task index"), s) ∧
    delete_task s i = (.error (.valueError "Invalid task index"), s) := by
  have hn := pyIdx_none h
  constructor
  · simp [complete_task, hn]
  · simp [delete_task, hn]

/-- Witness for C1: a one-task store and index 1. -/
theorem C1_out_of_bounds_fails_unchanged_witness :
    ((1 : Int) < -((1 : Nat) : Int) ∨ ((1 : Nat) : Int) ≤ 1) ∧
    (complete_task { tasks := [sampleTask "A" false], file := none } 1 "t2" =
      (.error (.valueError "Invalid task index"),
        { tasks := [sampleTask "A" false], file := none }) ∧
     delete_task { tasks := [sampleTask "A" false], file := none } 1 =
      (.error (.valueError "Invalid task index"),
        { tasks := [sampleTask "A" false], file := none })) :=
  ⟨by decide,
   C1_out_of_bounds_fails_unchanged
     { tasks := [sampleTask "A" false], file := none } 1 "t2" (by decide)⟩

/-- C7: `load` initialises the task sequence to empty when no persisted
file exists, reads the full persisted sequence when the file is
well-formed, and raises the JSON parse error when the content is
malformed; the same holds through `TaskManager` construction. -/
theorem C7_load_cases (ts : List Task) :
    load none = .ok [] ∧
    mkTaskManager none = .ok { tasks := [], file := none } ∧
    load (some (.wellFormed ts)) = .ok ts ∧
    mkTaskManager (some (.wellFormed ts)) =
      .ok { tasks := ts, file := some (.wellFormed ts) } ∧
    load (some .malformed) = .error .jsonDecodeError ∧
    mkTaskManager (some .malformed) = .error .jsonDecodeError :=
  ⟨rfl, rfl, rfl, rfl, rfl, rfl⟩

/-- C2: the invariant "`completed_at` is non-null iff `completed` is
true" holds of every task after any of `add_task`, `complete_task`,
`delete_task`, `clear_completed`, starting from any state satisfying
it (for any index and timestamp). -/
theorem C2_invariant_preserved (s : TMState) (h : storeInv s = true)
    (title description now : String) (i : Int) :
    storeInv (add_task s title description now).2 = true ∧
    storeInv (complete_task s i now).2 = true ∧
    storeInv (delete_task s i).2 = true ∧
    storeInv (clear_completed s) = true := by
  simp only [storeInv, List.all_eq_true] at h
  refine ⟨?_, ?_, ?_, ?_⟩
  · simp only [storeInv, List.all_eq_true]
    intro t ht
    simp only [add_task, save, List.mem_append, List.mem_singleton] at ht
    rcases ht with ht | rfl
    · exact h t ht
    · rfl
  · rcases hpy : pyIdx i s.tasks.length with _ | pos
    · simp only [complete_task, hpy]
      simpa [storeInv, List.all_eq_true] using h
    · have hlt := pyIdx_lt hpy
      simp only [complete_task, hpy, save, storeInv, List.all_eq_true]
      intro t ht
      rcases List.mem_or_eq_of_mem_set ht with ht | rfl
      · exact h t ht
      · exact taskInv_complete (h _ (getD_mem hlt)) now
  · rcases hpy : pyIdx i s.tasks.length with _ | pos
    · simp only [delete_task, hpy]
      simpa [storeInv, List.all_eq_true] using h
    · simp only [delete_task, hpy, save, storeInv, List.all_eq_true]
      intro t ht
      rcases List.mem_append.1 ht with ht | ht
      · exact h t (List.mem_of_mem_take ht)
      · exact h t (List.mem_of_mem_drop ht)
  · simp only [clear_completed, save, storeInv, List.all_eq_true]
    intro t ht
    exact h t (List.mem_of_mem_filter ht)

/-- Witness for C2: a two-task store (one completed) satisfying the
invariant, with index 0. -/
theorem C2_invariant_preserved_witness :
    storeInv sampleState = true ∧
    (storeInv (add_task sampleState "C" "" "t2").2 = true ∧
     storeInv (complete_task sampleState 0 "t2").2 = true ∧
     storeInv (delete_task sampleState 0).2 = true ∧
     storeInv (clear_completed sampleState) = true) :=
  ⟨by decide, C2_invariant_preserved sampleState (by decide) "C" "" "t2" 0⟩

/-- C3: completing an in-bounds index marks that task completed with a
non-null `completed_at`, stores it back at the same position, persists,
and returns it; a second `complete_task` on the same position is a no-op:
it returns the same task (same `completed_at`) and leaves the state
unchanged. -/
theorem C3_complete_sets_and_idempotent (s : TMState) (i : Int) (pos : Nat)
    (now now2 : String)
    (h : pyIdx i s.tasks.length = some pos) (hinv : storeInv s = true) :
    ∃ t, complete_task s i now =
        (.ok t, save { s with tasks := s.tasks.set pos t }) ∧
      t.completed = true ∧ t.completed_at ≠ none ∧
      complete_task (complete_task s i now).2 i now2 =
        (.ok t, (complete_task s i now).2) := by
  have hlt := pyIdx_lt h
  simp only [storeInv, List.all_eq_true] at hinv
  refine ⟨(s.tasks.getD pos default).complete now, ?_, ?_, ?_, ?_⟩
  · simp [complete_task, h]
  · exact completed_complete _ _
  · exact completed_at_complete (hinv _ (getD_mem hlt)) now
  · have h1 : complete_task s i now =
        (.ok ((s.tasks.getD pos default).complete now),
         save { s with
            tasks := s.tasks.set pos ((s.tasks.getD pos default).complete now) }) := by
      simp [complete_task, h]
    rw [h1]
    set t := (s.tasks.getD pos default).complete now with htdef
    have hpy2 : pyIdx i (s.tasks.set pos t).length = some pos := by
      rw [List.length_set]; exact h
    have hget : (s.tasks.set pos t)[pos]? = some t := by
      rw [List.getElem?_eq_getElem (by simpa using hlt)]
      simp
    have ht2 : t.complete now2 = t :=
      complete_of_completed (completed_complete _ _) now2
    simp [complete_task, save, h, hget, ht2, List.set_set]

/-- Witness for C3: completing index 1 of the two-task sample store. -/
theorem C3_complete_sets_and_idempotent_witness :
    (pyIdx 1 sampleState.tasks.length = some 1 ∧ storeInv sampleState = true) ∧
    (∃ t, complete_task sampleState 1 "t2" =
        (.ok t, save { sampleState with tasks := sampleState.tasks.set 1 t }) ∧
      t.completed = true ∧ t.completed_at ≠ none ∧
      complete_task (complete_task sampleState 1 "t2").2 1 "t3" =
        (.ok t, (complete_task sampleState 1 "t2").2)) :=
  ⟨⟨by decide, by decide⟩,
   C3_complete_sets_and_idempotent sampleState 1 1 "t2" "t3"
     (by decide) (by decide)⟩

/-- C4: deleting an in-bounds position `i` returns exactly the task at
position `i`, keeps every earlier task at its position, shifts every
later task's index down by one, shrinks the list by exactly one, and
persists the result. -/
theorem C4_delete_shifts (s : TMState) (i : Nat) (h : i < s.tasks.length) :
    (delete_task s (i : Int)).1 = .ok (s.tasks.getD i default) ∧
    (delete_task s (i : Int)).2.tasks.length = s.tasks.length - 1 ∧
    (∀ j, j < i →
      (delete_task s (i : Int)).2.tasks.getD j default = s.tasks.getD j default) ∧
    (∀ j, i ≤ j → j + 1 < s.tasks.length →
      (delete_task s (i : Int)).2.tasks.getD j default =
        s.tasks.getD (j + 1) default) ∧
    (delete_task s (i : Int)).2.file =
      some (.wellFormed (delete_task s (i : Int)).2.tasks) := by
  have hpy := pyIdx_ofNat h
  have hdel : delete_task s (i : Int) =
      (.ok (s.tasks.getD i default),
       save { s with tasks := s.tasks.take i ++ s.tasks.drop (i + 1) }) := by
    simp [delete_task, hpy]
  have hlen : (s.tasks.take i ++ s.tasks.drop (i + 1)).length =
      s.tasks.length - 1 := by
    simp [List.length_take, List.length_drop]
    omega
  refine ⟨by rw [hdel], by rw [hdel]; simpa [save] using hlen, ?_, ?_,
    by rw [hdel]; rfl⟩
  · intro j hj
    rw [hdel]
    have hj1 : j < (s.tasks.take i ++ s.tasks.drop (i + 1)).length := by omega
    have hj2 : j < s.tasks.length := by omega
    rw [save]
    rw [List.getD_eq_getElem _ default hj1, List.getD_eq_getElem _ default hj2]
    rw [List.getElem_append_left (by simp [List.length_take]; omega)]
    simp [List.getElem_take]
  · intro j hj hj1
    rw [hdel, save]
    have hjlt : j < (s.tasks.take i ++ s.tasks.drop (i + 1)).length := by omega
    rw [List.getD_eq_getElem _ default hjlt, List.getD_eq_getElem _ default hj1]
    have hlentake : (s.tasks.take i).length = i := by
      simp [List.length_take]; omega
    rw [List.getElem_append_right (by omega)]
    simp only [List.getElem_drop, hlentake]
    congr 1
    omega

/-- Witness for C4: deleting index 0 of the two-task sample store. -/
theorem C4_delete_shifts_witness :
    0 < sampleState.tasks.length ∧
    ((delete_task sampleState ((0 : Nat) : Int)).1 =
        .ok (sampleState.tasks.getD 0 default) ∧
     (delete_task sampleState ((0 : Nat) : Int)).2.tasks.length =
        sampleState.tasks.length - 1 ∧
     (∀ j, j < 0 →
       (delete_task sampleState ((0 : Nat) : Int)).2.tasks.getD j default =
         sampleState.tasks.getD j default) ∧
     (∀ j, 0 ≤ j → j + 1 < sampleState.tasks.length →
       (delete_task sampleState ((0 : Nat) : Int)).2.tasks.getD j default =
         sampleState.tasks.getD (j + 1) default) ∧
     (delete_task sampleState ((0 : Nat) : Int)).2.file =
       some (.wellFormed (delete_task sampleState ((0 : Nat) : Int)).2.tasks)) :=
  ⟨by decide, C4_delete_shifts sampleState 0 (by decide)⟩

/-- C5: `clear_completed` keeps exactly the tasks with `completed =
false`, in their original relative order (the survivors form a sublist of
the original sequence and every active task survives), and persists; in
particular the scenario add "A", add "B", complete 0, clear on an empty
store lists exactly the task "B", not completed. -/
theorem C5_clear_completed_filters (s : TMState) (nowA nowB nowC : String) :
    ((clear_completed s).tasks = s.tasks.filter (fun t => !t.completed) ∧
     (∀ t ∈ (clear_completed s).tasks, t.completed = false) ∧
     (clear_completed s).tasks.Sublist s.tasks ∧
     (∀ t ∈ s.tasks, t.completed = false → t ∈ (clear_completed s).tasks) ∧
     (clear_completed s).file = some (.wellFormed (clear_completed s).tasks)) ∧
    (let s0 : TMState := { tasks := [], file := none }
     let s1 := (add_task s0 "A" "" nowA).2
     let s2 := (add_task s1 "B" "" nowB).2
     let s3 := (complete_task s2 0 nowC).2
     list_tasks (clear_completed s3) true =
       [{ title := "B", description := "", completed := false,
          created_at := nowB, completed_at := none }]) := by
  refine ⟨⟨rfl, ?_, ?_, ?_, rfl⟩, ?_⟩
  · intro t ht
    have ht2 : t ∈ s.tasks.filter (fun t => !t.completed) := ht
    simpa using List.of_mem_filter ht2
  · exact List.filter_sublist _
  · intro t ht hc
    exact List.mem_filter.2 ⟨ht, by simp [hc]⟩
  · rfl

/-- C6: `add_task` appends a fresh task with `completed = false` and
`completed_at = null` (no title validation) and returns it, persisting
the appended sequence; `list_tasks` returns the full sequence or exactly
the not-completed subsequence in insertion order (a sublist), without
touching the state; hence adding then listing shows the new task last. -/
theorem C6_add_then_list (s : TMState) (title descr now : String) :
    (add_task s title descr now).1 =
      { title := title, description := descr, completed := false,
        created_at := now, completed_at := none } ∧
    (add_task s title descr now).2.tasks =
      s.tasks ++ [(add_task s title descr now).1] ∧
    (add_task s title descr now).2.file =
      some (.wellFormed (add_task s title descr now).2.tasks) ∧
    list_tasks s true = s.tasks ∧
    list_tasks s false = s.tasks.filter (fun t => !t.completed) ∧
    (list_tasks s false).Sublist s.tasks ∧
    (∀ t, t ∈ list_tasks s false ↔ t ∈ s.tasks ∧ t.completed = false) ∧
    list_tasks (add_task s title descr now).2 true =
      s.tasks ++ [{ title := title, description := descr, completed := false,
                    created_at := now, completed_at := none }] := by
  refine ⟨rfl, rfl, rfl, rfl, rfl, List.filter_sublist _, ?_, rfl⟩
  intro t
  constructor
  · intro ht
    exact ⟨(List.mem_filter.1 ht).1, by simpa using (List.mem_filter.1 ht).2⟩
  · intro ⟨ht, hc⟩
    exact List.mem_filter.2 ⟨ht, by simp [hc]⟩

/-- C9: with `n ≥ 1` tasks and `1 ≤ k ≤ n`, `complete_task (-k)` and
`delete_task (-k)` succeed (no "Invalid task index") and act on the task
at position `n - k`; with `k = 1` this is the last task. -/
theorem C9_negative_index_accepted (s : TMState) (k : Nat) (now : String)
    (h1 : 1 ≤ k) (h2 : k ≤ s.tasks.length) :
    (complete_task s (-(k : Int)) now).1 =
      .ok ((s.tasks.getD (s.tasks.length - k) default).complete now) ∧
    (complete_task s (-(k : Int)) now).2.tasks =
      s.tasks.set (s.tasks.length - k)
        ((s.tasks.getD (s.tasks.length - k) default).complete now) ∧
    (delete_task s (-(k : Int))).1 =
      .ok (s.tasks.getD (s.tasks.length - k) default) ∧
    (delete_task s (-(k : Int))).2.tasks =
      s.tasks.take (s.tasks.length - k) ++
        s.tasks.drop (s.tasks.length - k + 1) := by
  have hpy := pyIdx_neg h1 h2
  refine ⟨?_, ?_, ?_, ?_⟩ <;> simp [complete_task, delete_task, hpy, save]

/-- Witness for C9: index -1 on the two-task sample store acts on
position 1, the last task. -/
theorem C9_negative_index_accepted_witness :
    (1 ≤ 1 ∧ 1 ≤ sampleState.tasks.length) ∧
    ((complete_task sampleState (-((1 : Nat) : Int)) "t2").1 =
      .ok ((sampleState.tasks.getD (sampleState.tasks.length - 1)
        default).complete "t2") ∧
     (complete_task sampleState (-((1 : Nat) : Int)) "t2").2.tasks =
      sampleState.tasks.set (sampleState.tasks.length - 1)
        ((sampleState.tasks.getD (sampleState.tasks.length - 1)
          default).complete "t2") ∧
     (delete_task sampleState (-((1 : Nat) : Int))).1 =
      .ok (sampleState.tasks.getD (sampleState.tasks.length - 1) default) ∧
     (delete_task sampleState (-((1 : Nat) : Int))).2.tasks =
      sampleState.tasks.take (sampleState.tasks.length - 1) ++
        sampleState.tasks.drop (sampleState.tasks.length - 1 + 1)) :=
  ⟨⟨by decide, by decide⟩,
   C9_negative_index_accepted sampleState 1 "t2" (by decide) (by decide)⟩

lemma pyStrip_all_space {str : String} (h : str.data.all isPySpace = true) :
    pyStrip str = "" := by
  unfold pyStrip pyStripList
  rw [List.all_eq_true] at h
  have hd : str.data.dropWhile isPySpace = [] :=
    List.dropWhile_eq_nil_iff.2 h
  rw [hd]
  rfl

/-- C8: a POST to /tasks whose stripped title is blank (the title field
is empty or all whitespace) yields a 303 redirect whose Location carries
the `error` query parameter, and the persisted store is untouched (the
manager is never constructed, so nothing is added or saved). -/
theorem C8_blank_title_redirect (file : Option FileData)
    (form : List (String × String)) (now : String)
    (h : (formGet form "title").data.all isPySpace = true) :
    handle_add file form now =
      .ok ({ status := 303,
             headers := [("Location", "/?error=Task+title+is+required.")] },
           file) := by
  have htitle : pyStrip (formGet form "title") = "" := pyStrip_all_space h
  simp only [handle_add, htitle]
  rw [if_pos trivial]
  rfl

/-- Witness for C8: a whitespace-only title field. -/
theorem C8_blank_title_redirect_witness :
    (formGet [("title", " \t ")] "title").data.all isPySpace = true ∧
    handle_add none [("title", " \t ")] "t0" =
      .ok ({ status := 303,
             headers := [("Location", "/?error=Task+title+is+required.")] },
           none) :=
  ⟨by decide, C8_blank_title_redirect none [("title", " \t ")] "t0" (by decide)⟩

/-- C10: for a POST path of the shape a/b/seg/d whose index segment
`seg` is not `int()`-parseable (for example "/tasks/abc/complete"),
`handle_complete` and `handle_delete` do not produce an HTTP response:
the `ValueError` from `extract_index`, raised before the try/except that
guards the store call, propagates uncaught. -/
theorem C10_nonint_index_uncaught (file : Option FileData) (now : String)
    (path a b seg d : String)
    (hsplit : pySplit path '/' 3 = [a, b, seg, d])
    (hint : pyInt seg = none) :
    handle_complete file path now =
      .error (.valueError ("Invalid complete path: " ++ path)) ∧
    handle_delete file path =
      .error (.valueError ("Invalid delete path: " ++ path)) := by
  have hc : extract_index path "complete" =
      .error (.valueError ("Invalid complete path: " ++ path)) := by
    simp [extract_index, hsplit, hint]
  have hd : extract_index path "delete" =
      .error (.valueError ("Invalid delete path: " ++ path)) := by
    simp [extract_index, hsplit, hint]
  constructor
  · simp only [handle_complete, hc]
    rfl
  · simp only [handle_delete, hd]
    rfl

/-- Witness for C10: the path "/tasks/abc/complete". -/
theorem C10_nonint_index_uncaught_witness :
    (pySplit "/tasks/abc/complete" '/' 3 = ["", "tasks", "abc", "complete"] ∧
     pyInt "abc" = none) ∧
    (handle_complete none "/tasks/abc/complete" "t0" =
      .error (.valueError "Invalid complete path: /tasks/abc/complete") ∧
     handle_delete none "/tasks/abc/complete" =
      .error (.valueError "Invalid delete path: /tasks/abc/complete")) :=
  ⟨⟨by decide, by decide⟩,
   C10_nonint_index_uncaught none "t0" "/tasks/abc/complete"
     "" "tasks" "abc" "complete" (by decide) (by decide)⟩

end TaskApp
